import Mathlib

/-!
# Verification of the formgen schema-driven form engine

Shallow embedding of the core logic of the `formgen` repository: the
filter/query builder (`src/services/graphql.service.ts`
`getFormResponsesWithFilters` and the parallel
`SupabaseService.getFormResponsesWithFilters`), the relation display
resolvers, the form validator, schema parsing, CSV export, and the
relation-field processing performed at form save time.

JavaScript values are modelled by the inductive type `Json` below, with a
distinguished `undefined` constructor for `undefined`.  JavaScript numbers are
modelled as integers (every value the claims exercise is integral).
`JSON.parse` is a platform primitive and is modelled as a parameter
`jparse : String → Option Json` (with `none` standing for a parse
exception); `JSON.stringify` is implemented below.
-/

/-- Model of a JavaScript value.  `undefined` is JavaScript `undefined`,
distinct from `null`.  Numbers are modelled as integers. -/
inductive Json where
  | undefined : Json
  | null : Json
  | bool (b : Bool) : Json
  | num (n : Int) : Json
  | str (s : String) : Json
  | arr (elems : List Json) : Json
  | obj (entries : List (String × Json)) : Json
  deriving Repr

namespace Json

/-- JavaScript truthiness: `undefined`, `null`, `false`, `0` and `""` are
falsy; every other value (including any object or array) is truthy. -/
def truthy : Json → Bool
  | .undefined => false
  | .null => false
  | .bool b => b
  | .num n => n != 0
  | .str s => s != ""
  | .arr _ => true
  | .obj _ => true

/-- `typeof v === "string"`. -/
def isString : Json → Bool
  | .str _ => true
  | _ => false

/-- `v === undefined`. -/
def isUndefined : Json → Bool
  | .undefined => true
  | _ => false

/-- `typeof v === "object"` (true for `null`, arrays and objects). -/
def isObjectType : Json → Bool
  | .null => true
  | .arr _ => true
  | .obj _ => true
  | _ => false

/-- Property read `v[k]`: `undefined` when the key is absent or the value
is not an object (the throwing cases `null[k]` / `undefined[k]` do not
occur on the modelled paths). -/
def get : Json → String → Json
  | .obj entries, k => (entries.lookup k).getD .undefined
  | _, _ => .undefined

/-- `k in v`: key-presence test on objects. -/
def hasKey : Json → String → Bool
  | .obj entries, k => (entries.lookup k).isSome
  | _, _ => false

/-- Writes used in `setKey`: replaces the first binding of the key, or
appends one (JavaScript objects keep first-insertion key order). -/
def setEntries : List (String × Json) → String → Json → List (String × Json)
  | [], k, x => [(k, x)]
  | (k', v') :: rest, k, x =>
      if k' = k then (k, x) :: rest else (k', v') :: setEntries rest k x

/-- Property write `v[k] = x` on an object; identity on non-objects. -/
def setKey : Json → String → Json → Json
  | .obj entries, k, x => .obj (setEntries entries k x)
  | v, _, _ => v

/-- JavaScript strict equality `===` on the values the code compares
(primitives; object/array identity is not modelled and compares unequal,
matching `===` on distinct object references). -/
def strictEq : Json → Json → Bool
  | .undefined, .undefined => true
  | .null, .null => true
  | .bool a, .bool b => a == b
  | .num a, .num b => a == b
  | .str a, .str b => a == b
  | _, _ => false

mutual

/-- `String(v)` / template-literal stringification. -/
def toJsString : Json → String
  | .undefined => "undefined"
  | .null => "null"
  | .bool b => if b then "true" else "false"
  | .num n => toString n
  | .str s => s
  | .arr l => toJsStringElems l
  | .obj _ => "[object Object]"

/-- Array stringification: elements joined by commas (JavaScript
`Array.prototype.toString`). -/
def toJsStringElems : List Json → String
  | [] => ""
  | [e] => toJsString e
  | e :: rest => toJsString e ++ "," ++ toJsStringElems rest

end

mutual

/-- `JSON.stringify`.  `undefined` entries of an object are dropped and
`undefined` array elements serialize as `null`, as in JavaScript.  String
escaping is approximated by Lean's `String.quote` (no theorem below
depends on the escaped form). -/
def stringify : Json → String
  | .undefined => ""
  | .null => "null"
  | .bool b => if b then "true" else "false"
  | .num n => toString n
  | .str s => s.quote
  | .arr l => "[" ++ String.intercalate "," (stringifyElems l) ++ "]"
  | .obj entries => "\x7b" ++ String.intercalate "," (stringifyCells entries) ++ "\x7d"

def stringifyElems : List Json → List String
  | [] => []
  | .undefined :: rest => "null" :: stringifyElems rest
  | e :: rest => stringify e :: stringifyElems rest

def stringifyCells : List (String × Json) → List String
  | [] => []
  | (_, .undefined) :: rest => stringifyCells rest
  | (k, v) :: rest => (k.quote ++ ":" ++ stringify v) :: stringifyCells rest

end

end Json

/-! ## Filter / query builder

Embedding of `getFormResponsesWithFilters` from
`src/services/graphql.service.ts` (the `GraphQLService` version) and from
`src/services/supabase.service.ts` (the `SupabaseService` version).  A
supabase query is modelled as the list of constraint-building steps the
code applies to it, in application order. -/

/-- One filter entry, `{ operator: string; value: any }`. -/
structure QFilter where
  operator : String
  value : Json
  deriving Repr

/-- One step applied to the supabase query builder. -/
inductive QueryStep where
  /-- `.eq(column, value)` -/
  | eqc (column : String) (value : Json)
  /-- `.order(column, { ascending })` -/
  | order (column : String) (ascending : Bool)
  /-- `.filter(path, op, value)` -/
  | filter (path : String) (op : String) (value : Json)
  /-- `.range(from, to)` (inclusive offsets) -/
  | range (lo hi : Int)
  deriving Repr

/-- The guard `filter.value !== "" && filter.value !== null &&
filter.value !== undefined && filter.value !== false` that decides whether
a filter entry is applied at all (both service versions use the same
guard). -/
def filterApplied (v : Json) : Bool :=
  !(v.strictEq (.str "")) && !(v.strictEq .null) &&
    !(v.strictEq .undefined) && !(v.strictEq (.bool false))

/-- `isTextSearch`: text extraction (`->>`) is chosen for `contains`,
`startsWith`, `endsWith`, and `equals` with a string value (both service
versions use the same test). -/
def isTextSearch (f : QFilter) : Bool :=
  f.operator == "contains" || f.operator == "startsWith" ||
    f.operator == "endsWith" || (f.operator == "equals" && f.value.isString)

/-- `jsonPath`: `data->>field` under text extraction, `data->field`
otherwise. -/
def jsonPath (fieldName : String) (f : QFilter) : String :=
  if isTextSearch f then "data->>" ++ fieldName else "data->" ++ fieldName

/-- The constraint steps one filter entry contributes in the
`GraphQLService` builder (`graphql.service.ts`, the if/else chain over the
operator): nothing when the applied-guard fails or the operator is
unknown, otherwise exactly one `.filter` step. -/
def filterStepsSvc (fieldName : String) (f : QFilter) : List QueryStep :=
  if filterApplied f.value then
    let path := jsonPath fieldName f
    if f.operator == "contains" then
      [.filter path "ilike" (.str ("%" ++ f.value.toJsString ++ "%"))]
    else if f.operator == "equals" then
      [.filter path "eq" f.value]
    else if f.operator == "isTrue" then
      [.filter path "eq" (.bool true)]
    else if f.operator == "isFalse" then
      [.filter path "eq" (.bool false)]
    else if f.operator == "greaterThan" then
      [.filter path "gt" f.value]
    else if f.operator == "lessThan" then
      [.filter path "lt" f.value]
    else if f.operator == "startsWith" then
      [.filter path "ilike" (.str (f.value.toJsString ++ "%"))]
    else if f.operator == "endsWith" then
      [.filter path "ilike" (.str ("%" ++ f.value.toJsString))]
    else if f.operator == "greaterThanOrEqual" then
      [.filter path "gte" f.value]
    else if f.operator == "lessThanOrEqual" then
      [.filter path "lte" f.value]
    else []
  else []

/-- The constraint steps one filter entry contributes in the
`SupabaseService` builder (`supabase.service.ts`, the `switch` over the
operator — note it has no `greaterThanOrEqual`/`lessThanOrEqual` cases). -/
def filterStepsSb (fieldName : String) (f : QFilter) : List QueryStep :=
  if filterApplied f.value then
    let path := jsonPath fieldName f
    match f.operator with
    | "contains" => [.filter path "ilike" (.str ("%" ++ f.value.toJsString ++ "%"))]
    | "equals" => [.filter path "eq" f.value]
    | "isTrue" => [.filter path "eq" (.bool true)]
    | "isFalse" => [.filter path "eq" (.bool false)]
    | "greaterThan" => [.filter path "gt" f.value]
    | "lessThan" => [.filter path "lt" f.value]
    | "startsWith" => [.filter path "ilike" (.str (f.value.toJsString ++ "%"))]
    | "endsWith" => [.filter path "ilike" (.str ("%" ++ f.value.toJsString))]
    | _ => []
  else []

/-- Inclusive pagination offsets: `from = (page - 1) * pageSize`,
`to = from + pageSize - 1`. -/
def pageFrom (page pageSize : Int) : Int := (page - 1) * pageSize

def pageTo (page pageSize : Int) : Int := pageFrom page pageSize + pageSize - 1

/-- The full step list built by `getFormResponsesWithFilters` (identical
query skeleton in both service versions): `.eq("form_id", formId)`, then
`.order("created_at", { ascending: false })`, then the per-entry filter
steps in entry order, then `.range(from, to)`. -/
def buildQuery (perEntry : String → QFilter → List QueryStep)
    (formId : String) (filters : List (String × QFilter))
    (page pageSize : Int) : List QueryStep :=
  (filters.foldl (fun q e => q ++ perEntry e.1 e.2)
      [QueryStep.eqc "form_id" (.str formId),
       QueryStep.order "created_at" false])
    ++ [QueryStep.range (pageFrom page pageSize) (pageTo page pageSize)]

/-- `GraphQLService.getFormResponsesWithFilters` query construction. -/
def buildQuerySvc (formId : String) (filters : List (String × QFilter))
    (page pageSize : Int) : List QueryStep :=
  buildQuery filterStepsSvc formId filters page pageSize

/-- `SupabaseService.getFormResponsesWithFilters` query construction. -/
def buildQuerySb (formId : String) (filters : List (String × QFilter))
    (page pageSize : Int) : List QueryStep :=
  buildQuery filterStepsSb formId filters page pageSize

/-- `Math.ceil(total / pageSize)` on the (nonnegative integral) counts the
code computes with; exact for `pageSize > 0`.  (JavaScript computes this in
floating point; the claims' inputs are small integers where the float
result is exact.) -/
def totalPagesJs (total pageSize : Nat) : Int :=
  Int.ceil ((total : ℚ) / (pageSize : ℚ))

/-- The result record `{ responses, total, page, pageSize, totalPages }`
assembled from the backend's `data` and `count` (`data || []`,
`count || 0`, `Math.ceil((count || 0) / pageSize)`). -/
structure FilteredResult where
  responses : List Json
  total : Nat
  page : Nat
  pageSize : Nat
  totalPages : Int
  deriving Repr

def assembleResult (data : Option (List Json)) (count : Option Nat)
    (page pageSize : Nat) : FilteredResult :=
  { responses := data.getD []
    total := count.getD 0
    page := page
    pageSize := pageSize
    totalPages := totalPagesJs (count.getD 0) pageSize }

/-! ## The response browser's checkbox filter construction

From `responses-index.tsx` `fetchResponses`: a checkbox filter whose UI
state holds the string `"true"` is sent as `{operator: "isTrue", value:
true}`, and `"false"` as `{operator: "isFalse", value: false}`; any other
state keeps the implicit operator for checkboxes (`"isTrue"`). -/

def checkboxFilterFor (uiValue : String) : QFilter :=
  if uiValue == "true" then { operator := "isTrue", value := .bool true }
  else if uiValue == "false" then { operator := "isFalse", value := .bool false }
  else { operator := "isTrue", value := .str uiValue }

/-! ## Helper lemmas -/

/-- The two JSON addressing prefixes never produce the same path for the
same field name. -/
theorem textPath_ne_nativePath (name : String) :
    ("data->>" ++ name : String) ≠ "data->" ++ name := by
  intro h
  have hlen := congrArg String.length h
  simp [String.length_append] at hlen
  simp [String.length] at hlen

/-- Membership in a fold that only appends to the accumulator is preserved
from the initial accumulator. -/
theorem mem_foldl_append {α β : Type} (g : β → List α) (x : α) :
    ∀ (l : List β) (init : List α), x ∈ init →
      x ∈ l.foldl (fun q e => q ++ g e) init := by
  intro l
  induction l with
  | nil => intro init h; simpa using h
  | cons e rest ih =>
      intro init h
      exact ih (init ++ g e) (List.mem_append_left _ h)

/-- C1: the claim says a filter with operator `isFalse` and value `false`
is still applied as a boolean-equality constraint.  In the code the
applied-guard `value !== false` drops every filter whose value is `false`
unconditionally, so the checkbox filter the browser UI builds for the
"false" tri-state (`{operator: "isFalse", value: false}`) contributes no
constraint step in either service's builder — the builders' own `isFalse`
branches are unreachable for that input. -/
theorem isFalse_false_filter_is_dropped :
    checkboxFilterFor "false" =
      { operator := "isFalse", value := Json.bool false } ∧
    filterApplied (Json.bool false) = false ∧
    filterStepsSvc "subscribed"
      { operator := "isFalse", value := Json.bool false } = [] ∧
    filterStepsSb "subscribed"
      { operator := "isFalse", value := Json.bool false } = [] :=
  ⟨rfl, rfl, rfl, rfl⟩

/-- C8: for every form id, filter map, page and page size, the query built
by `getFormResponsesWithFilters` (both the `GraphQLService` and the
`SupabaseService` version) contains the equality constraint
`.eq("form_id", formId)` and the descending order
`.order("created_at", { ascending: false })`, no matter which field
filters are active. -/
theorem query_always_has_formId_eq_and_created_at_order
    (formId : String) (filters : List (String × QFilter))
    (page pageSize : Int) :
    (QueryStep.eqc "form_id" (.str formId) ∈
        buildQuerySvc formId filters page pageSize ∧
      QueryStep.order "created_at" false ∈
        buildQuerySvc formId filters page pageSize) ∧
    (QueryStep.eqc "form_id" (.str formId) ∈
        buildQuerySb formId filters page pageSize ∧
      QueryStep.order "created_at" false ∈
        buildQuerySb formId filters page pageSize) := by
  have base : ∀ (perEntry : String → QFilter → List QueryStep),
      QueryStep.eqc "form_id" (.str formId) ∈
          buildQuery perEntry formId filters page pageSize ∧
        QueryStep.order "created_at" false ∈
          buildQuery perEntry formId filters page pageSize := by
    intro perEntry
    constructor <;>
      exact List.mem_append_left _
        (mem_foldl_append _ _ filters _ (by simp))
  exact ⟨base filterStepsSvc, base filterStepsSb⟩

/-- Every constraint step a filter entry contributes in the
`GraphQLService` builder addresses the data column at `jsonPath`. -/
theorem filterStepsSvc_path {name : String} {f : QFilter}
    {path op : String} {v : Json}
    (h : QueryStep.filter path op v ∈ filterStepsSvc name f) :
    path = jsonPath name f := by
  by_cases hA : filterApplied f.value = true
  · unfold filterStepsSvc at h
    rw [if_pos hA] at h
    dsimp only at h
    repeat' split at h
    all_goals first
      | (simp only [List.mem_singleton, QueryStep.filter.injEq] at h
         exact h.1)
      | simp at h
  · unfold filterStepsSvc at h
    rw [if_neg hA] at h
    simp at h

/-- Every constraint step a filter entry contributes in the
`SupabaseService` builder addresses the data column at `jsonPath`. -/
theorem filterStepsSb_path {name : String} {f : QFilter}
    {path op : String} {v : Json}
    (h : QueryStep.filter path op v ∈ filterStepsSb name f) :
    path = jsonPath name f := by
  unfold filterStepsSb at h
  split at h
  · dsimp only at h
    split at h
    all_goals first
      | (simp only [List.mem_singleton, QueryStep.filter.injEq] at h
         exact h.1)
      | simp at h
  · simp at h

/-- The text-extraction test, spelled out. -/
theorem isTextSearch_iff (f : QFilter) :
    isTextSearch f = true ↔
      (f.operator = "contains" ∨ f.operator = "startsWith" ∨
        f.operator = "endsWith" ∨
        (f.operator = "equals" ∧ f.value.isString = true)) := by
  simp [isTextSearch]
  tauto

/-- C2: every applied filter entry's constraint step addresses the JSON
data column with text extraction (`data->>field`) exactly when the
operator is `contains`, `startsWith` or `endsWith`, or is `equals` with a
string value, and with native extraction (`data->field`) otherwise (this
covers `equals` with a non-string value, `isTrue`, `isFalse`,
`greaterThan`, `lessThan`, `greaterThanOrEqual`, `lessThanOrEqual`);
moreover each of those operators, when its value passes the applied-guard,
does contribute a step addressed at `jsonPath`. -/
theorem applied_filter_addressing :
    (∀ (name : String) (f : QFilter) (path op : String) (v : Json),
        (QueryStep.filter path op v ∈ filterStepsSvc name f ∨
          QueryStep.filter path op v ∈ filterStepsSb name f) →
        ((path = "data->>" ++ name ↔
            (f.operator = "contains" ∨ f.operator = "startsWith" ∨
              f.operator = "endsWith" ∨
              (f.operator = "equals" ∧ f.value.isString = true))) ∧
          (path = "data->" ++ name ↔
            ¬(f.operator = "contains" ∨ f.operator = "startsWith" ∨
              f.operator = "endsWith" ∨
              (f.operator = "equals" ∧ f.value.isString = true))))) ∧
    (∀ (name : String) (f : QFilter),
        filterApplied f.value = true →
        f.operator ∈ ["contains", "startsWith", "endsWith", "equals",
          "isTrue", "isFalse", "greaterThan", "lessThan",
          "greaterThanOrEqual", "lessThanOrEqual"] →
        ∃ (op : String) (v : Json),
          QueryStep.filter (jsonPath name f) op v ∈ filterStepsSvc name f) := by
  constructor
  · intro name f path op v hmem
    have hp : path = jsonPath name f :=
      hmem.elim filterStepsSvc_path filterStepsSb_path
    subst hp
    have hne := textPath_ne_nativePath name
    by_cases hts : isTextSearch f = true
    · have hC := (isTextSearch_iff f).mp hts
      constructor
      · simp [jsonPath, hts, hC]
      · simp [jsonPath, hts, hC, hne]
    · have hC : ¬(f.operator = "contains" ∨ f.operator = "startsWith" ∨
          f.operator = "endsWith" ∨
          (f.operator = "equals" ∧ f.value.isString = true)) :=
        fun hc => hts ((isTextSearch_iff f).mpr hc)
      constructor
      · simp [jsonPath, hts, hC, Ne.symm hne]
      · simp [jsonPath, hts, hC]
  · intro name f happ hop
    simp only [List.mem_cons, List.not_mem_nil, or_false] at hop
    rcases hop with h|h|h|h|h|h|h|h|h|h
    all_goals exact ⟨_, _, by simp [filterStepsSvc, happ, h]; exact ⟨rfl, rfl⟩⟩

/-- Witness for `applied_filter_addressing`: a concrete applied
`greaterThan` filter contributes a native-addressed constraint step. -/
theorem applied_filter_addressing_witness :
    ∃ (op : String) (v : Json),
      QueryStep.filter (jsonPath "age" ⟨"greaterThan", Json.num 5⟩) op v ∈
        filterStepsSvc "age" ⟨"greaterThan", Json.num 5⟩ :=
  applied_filter_addressing.2 "age" ⟨"greaterThan", Json.num 5⟩ rfl (by decide)

/-- `Math.ceil(total / pageSize)` agrees with natural-number ceiling
division `(total + pageSize - 1) / pageSize` for positive page sizes. -/
theorem totalPagesJs_eq_ceilDiv (t ps : Nat) (h : 0 < ps) :
    totalPagesJs t ps = ((t + ps - 1) / ps : Nat) := by
  have hps : (0 : ℚ) < (ps : ℚ) := by exact_mod_cast h
  set n : Nat := (t + ps - 1) / ps with hn
  have h1 : n * ps ≤ t + ps - 1 := Nat.div_mul_le_self _ _
  have h2 : t + ps - 1 < n * ps + ps := by
    have hdm : ps * n + (t + ps - 1) % ps = t + ps - 1 :=
      Nat.div_add_mod (t + ps - 1) ps
    have hml : (t + ps - 1) % ps < ps := Nat.mod_lt _ h
    calc t + ps - 1 = ps * n + (t + ps - 1) % ps := hdm.symm
      _ < ps * n + ps := Nat.add_lt_add_left hml _
      _ = n * ps + ps := by rw [Nat.mul_comm]
  have hnp : n * ps + 1 ≤ t + ps := by
    have hge : 1 ≤ t + ps := by omega
    revert h1 hge
    generalize n * ps = m
    intro h1 hge
    omega
  have h3 : t ≤ n * ps := by
    revert h2
    generalize n * ps = m
    intro h2
    omega
  rw [totalPagesJs, Int.ceil_eq_iff]
  constructor
  · rw [lt_div_iff₀ hps]
    have hq : ((n * ps : Nat) : ℚ) + 1 ≤ (t : ℚ) + ps := by exact_mod_cast hnp
    push_cast at hq ⊢
    nlinarith [hq]
  · rw [div_le_iff₀ hps]
    exact_mod_cast h3

/-- C5: pagination computes `from = (page-1)*pageSize` and
`to = from + pageSize - 1` as inclusive offsets, and
`totalPages = ceil(total/pageSize)` (equivalently
`(total + pageSize - 1) / pageSize` in natural division); in particular
`total=0, pageSize=10` gives `totalPages = 0`; `total=25, pageSize=10`
gives `totalPages = 3`; `page=3, pageSize=10` gives offsets `[20, 29]`. -/
theorem pagination_math (page pageSize total : Nat)
    (hpage : 1 ≤ page) (hps : 0 < pageSize) :
    pageFrom page pageSize = ((page : Int) - 1) * pageSize ∧
    pageTo page pageSize = pageFrom page pageSize + pageSize - 1 ∧
    totalPagesJs total pageSize = Int.ceil ((total : ℚ) / (pageSize : ℚ)) ∧
    totalPagesJs total pageSize = ((total + pageSize - 1) / pageSize : Nat) ∧
    totalPagesJs 0 10 = 0 ∧
    totalPagesJs 25 10 = 3 ∧
    pageFrom 3 10 = 20 ∧ pageTo 3 10 = 29 ∧
    (assembleResult none none 1 10).totalPages = 0 := by
  refine ⟨rfl, rfl, rfl, totalPagesJs_eq_ceilDiv total pageSize hps, ?_, ?_, ?_, ?_, ?_⟩
  · rw [totalPagesJs_eq_ceilDiv 0 10 (by norm_num)]; norm_num
  · rw [totalPagesJs_eq_ceilDiv 25 10 (by norm_num)]; norm_num
  · norm_num [pageFrom]
  · norm_num [pageTo, pageFrom]
  · show totalPagesJs 0 10 = 0
    rw [totalPagesJs_eq_ceilDiv 0 10 (by norm_num)]; norm_num

/-- Witness for `pagination_math` at `page=3, pageSize=10, total=25`. -/
theorem pagination_math_witness : pageFrom 3 10 = ((3 : Int) - 1) * 10 :=
  (pagination_math 3 10 25 (by decide) (by decide)).1

/-! ## Form validator

Embedding of `validateForm` from the response editor (`EditResponse`).
Error messages are collected in a string-keyed map modelled as an
association list with JavaScript object update semantics. -/

/-- A schema field as the validator and the relation resolvers see it. -/
structure FormField where
  id : String
  type : String
  label : String
  required : Bool
  options : List String := []
  displayField : Option String := none
  deriving Repr

/-- Splits a character list at every occurrence of a separator
character. -/
def splitOnChar (sep : Char) : List Char → List (List Char)
  | [] => [[]]
  | c :: rest =>
      let r := splitOnChar sep rest
      if c = sep then [] :: r
      else match r with
        | [] => [[c]]
        | g :: gs => (c :: g) :: gs

/-- `String.prototype.trim`: strips leading and trailing whitespace. -/
def jsTrim (s : String) : String :=
  String.mk
    (((s.toList.dropWhile Char.isWhitespace).reverse.dropWhile
        Char.isWhitespace).reverse)

/-- JavaScript object update on a string-keyed map: replace the first
binding in place, else append. -/
def setErr (m : List (String × String)) (k v : String) :
    List (String × String) :=
  match m with
  | [] => [(k, v)]
  | (k', v') :: rest =>
      if k' = k then (k, v) :: rest else (k', v') :: setErr rest k v

/-- Test of the email regex `/^[^\s@]+@[^\s@]+\.[^\s@]+$/`: one `@` sign
splitting the string into a nonempty whitespace-free local part and a
whitespace-free domain part that contains a dot with at least one
character on each side. -/
def emailRegexTest (s : String) : Bool :=
  match splitOnChar '@' s.toList with
  | [l, r] =>
      decide (0 < l.length) &&
      (l.all fun c => !c.isWhitespace) &&
      (r.all fun c => !c.isWhitespace) &&
      (match r with
        | [] => false
        | _ :: rest => rest.dropLast.contains '.')
  | _ => false

/-- Mantissa-with-exponent check used by `isNumericLit`. -/
def mantissaExp (cs : List Char) : Bool :=
  let p := cs.span (fun c => c.isDigit || c = '.')
  (p.1.count '.' ≤ 1) && p.1.any Char.isDigit &&
    (match p.2 with
      | [] => true
      | e :: t =>
          (e = 'e' || e = 'E') &&
            (let t := match t with
              | '+' :: u => u
              | '-' :: u => u
              | u => u
            t ≠ [] && t.all Char.isDigit))

/-- Decimal numeric literal accepted by JavaScript `Number(...)` (an
optional sign, digits with at most one dot, an optional exponent, or
`Infinity`; the hexadecimal/binary/octal forms are outside the modelled
scope — no claim exercises them). -/
def isNumericLit (s : String) : Bool :=
  let cs := match s.toList with
    | '+' :: t => t
    | '-' :: t => t
    | t => t
  cs = ['I', 'n', 'f', 'i', 'n', 'i', 't', 'y'] || mantissaExp cs

/-- `isNaN(Number(s))` for a string input: the empty/whitespace-only
string converts to `0` (not NaN), otherwise the trimmed string must be a
numeric literal. -/
def jsNumberIsNaN (s : String) : Bool :=
  let t := jsTrim s
  if t = "" then false else !(isNumericLit t)

/-- One field's contribution to the `validateForm` error map
(`EditResponse.validateForm`): the required check (with checkbox and
selection variants), the email format check, the number format check, and
the relation existence check, in source order.  JavaScript calls
`value.trim()` on the raw value in the email/number guards; that is
modelled through `toJsString` (identical for the string values those
branches can reach without throwing). -/
def validateField (relatedResponses : String → List Json)
    (formData : List (String × Json)) (errors : List (String × String))
    (field : FormField) : List (String × String) :=
  let value := (formData.lookup field.id).getD .undefined
  let e1 :=
    if field.required then
      if field.type == "checkbox" then
        if !value.truthy then
          setErr errors field.id (field.label ++ " is required")
        else errors
      else if field.type == "select" || field.type == "radio" ||
          field.type == "relation" then
        if !value.truthy || jsTrim value.toJsString == "" then
          setErr errors field.id
            ("Please select an option for " ++ field.label)
        else errors
      else
        if !value.truthy || jsTrim value.toJsString == "" then
          setErr errors field.id (field.label ++ " is required")
        else errors
    else errors
  let e2 :=
    if field.type == "email" && value.truthy &&
        jsTrim value.toJsString != "" then
      if !emailRegexTest value.toJsString then
        setErr e1 field.id "Please enter a valid email address"
      else e1
    else e1
  let e3 :=
    if field.type == "number" && value.truthy &&
        jsTrim value.toJsString != "" then
      if jsNumberIsNaN value.toJsString then
        setErr e2 field.id "Please enter a valid number"
      else e2
    else e2
  let e4 :=
    if field.type == "relation" && field.required && value.truthy then
      if ((relatedResponses field.id).find?
            (fun rid => rid.strictEq value)).isNone then
        setErr e3 field.id "Please select a valid option"
      else e3
    else e3
  e4

/-- `validateForm`: every field is visited (no short-circuit on first
error) and the error map is returned. -/
def validateForm (relatedResponses : String → List Json)
    (fields : List FormField) (formData : List (String × Json)) :
    List (String × String) :=
  fields.foldl (validateField relatedResponses formData) []

/-- C4: the validator yields a required-field error keyed by the field id
for a required text field whose value is whitespace-only; no error for a
non-required email field with empty value; a format error for an email
field with value `"a@b"`; and no error for `"a@b.com"`. -/
theorem validator_cases :
    validateForm (fun _ => [])
        [{ id := "name", type := "text", label := "Name", required := true }]
        [("name", Json.str "   ")] = [("name", "Name is required")] ∧
    validateForm (fun _ => [])
        [{ id := "m", type := "email", label := "Mail", required := false }]
        [("m", Json.str "")] = [] ∧
    validateForm (fun _ => [])
        [{ id := "m", type := "email", label := "Mail", required := false }]
        [("m", Json.str "a@b")] =
      [("m", "Please enter a valid email address")] ∧
    validateForm (fun _ => [])
        [{ id := "m", type := "email", label := "Mail", required := false }]
        [("m", Json.str "a@b.com")] = [] :=
  ⟨rfl, rfl, rfl, rfl⟩

/-! ## Response fetch guard and schema parsing -/

/-- An id column value, which the code allows to be a string or a number
(`string | number`). -/
inductive IdVal where
  | s (v : String)
  | n (v : Int)
  deriving Repr

/-- `.toString()` on an id value. -/
def IdVal.toStr : IdVal → String
  | .s v => v
  | .n v => toString v

/-- A fetched response row as the view/edit pages see it. -/
structure RespRec where
  form_id : IdVal
  data : Json

/-- Outcome of the response fetch in `EditResponse.fetchData` /
`ShowResponse.fetchData`. -/
inductive FetchOutcome where
  | notFound
  | loaded (data : Json)

/-- The fetch guard shared by `EditResponse.fetchData` and
`ShowResponse.fetchData`: a missing response sets the not-found state; a
response whose `form_id` (compared as strings) differs from the requested
form's id also sets the not-found state and returns before any response
data is loaded; otherwise the response data is loaded. -/
def fetchResponseOutcome (formId : IdVal) (resp : Option RespRec) :
    FetchOutcome :=
  match resp with
  | none => .notFound
  | some r =>
      if r.form_id.toStr != formId.toStr then .notFound
      else .loaded r.data

/-- C6: a fetched response whose `form_id` does not match the requested
form id is treated as "response not found" — the not-found outcome, with
no data loaded — exactly as when the response does not exist. -/
theorem formid_mismatch_is_not_found (formId : IdVal) (r : RespRec)
    (h : r.form_id.toStr ≠ formId.toStr) :
    fetchResponseOutcome formId (some r) = FetchOutcome.notFound ∧
    fetchResponseOutcome formId (some r) = fetchResponseOutcome formId none := by
  simp [fetchResponseOutcome, h]

/-- Witness for `formid_mismatch_is_not_found`: fetching a response that
belongs to form `2` under form `"f1"` yields the not-found outcome. -/
theorem formid_mismatch_is_not_found_witness :
    fetchResponseOutcome (.s "f1") (some ⟨.n 2, .null⟩) =
      FetchOutcome.notFound :=
  (formid_mismatch_is_not_found (.s "f1") ⟨.n 2, .null⟩ (by decide)).1

/-- The schema reader shared by `fetchFormDetails` (responses index) and
`EditResponse.fetchData`: `parsedFields` starts as `[]`; a string schema
is JSON-parsed inside `try` (an exception leaves `[]`); then
`if (schema && typeof schema === "object" && "fields" in schema)
parsedFields = schema.fields || []`. -/
def parseSchemaFields (jparse : String → Option Json) (schema : Json) :
    Json :=
  let extract : Json → Json := fun j =>
    if j.truthy && j.isObjectType && j.hasKey "fields" then
      if (j.get "fields").truthy then j.get "fields" else .arr []
    else .arr []
  match schema with
  | .str s =>
      match jparse s with
      | none => .arr []
      | some j => extract j
  | j => extract j

/-- C7 counterexample: a stored schema value holding a truthy non-array
`fields` member — a value without a fields array — is not mapped to the
empty field list: the reader passes the member through unchanged, so the
claim's universal "yields an empty field list" fails at this input. -/
theorem schema_fields_nonarray_passthrough :
    parseSchemaFields (fun _ => none) (.obj [("fields", .str "x")]) =
        .str "x" ∧
      parseSchemaFields (fun _ => none) (.obj [("fields", .str "x")]) ≠
        .arr [] :=
  ⟨rfl, fun h => Json.noConfusion h⟩

/-- C7 (amended): the schema reader is total and yields the empty field
list when the schema is a string that fails to parse, when the parsed (or
native) value has no `fields` member, and when the `fields` member is
falsy; only a truthy non-array `fields` member is passed through
unchanged. -/
theorem schema_parse_fallback (jparse : String → Option Json)
    (s : String) (j : Json) :
    (jparse s = none → parseSchemaFields jparse (.str s) = .arr []) ∧
    (jparse s = some j → j.hasKey "fields" = false →
      parseSchemaFields jparse (.str s) = .arr []) ∧
    (j.isString = false → j.hasKey "fields" = false →
      parseSchemaFields jparse j = .arr []) ∧
    (j.isString = false → (j.get "fields").truthy = false →
      parseSchemaFields jparse j = .arr []) := by
  refine ⟨?_, ?_, ?_, ?_⟩
  · intro h; simp [parseSchemaFields, h]
  · intro h hk; simp [parseSchemaFields, h, hk]
  · intro hs hk
    cases j <;> simp_all [parseSchemaFields, Json.isString]
  · intro hs hf
    cases j <;> simp_all [parseSchemaFields, Json.isString]

/-- Witness for `schema_parse_fallback`: a string schema that fails to
parse yields the empty field list. -/
theorem schema_parse_fallback_witness :
    parseSchemaFields (fun _ => none) (.str "not json") = .arr [] :=
  (schema_parse_fallback (fun _ => none) "not json" .null).1 rfl

/-! ## Relation display resolvers

Two independent implementations exist: `fetchRelatedFormData` in the
response viewer (`ShowResponse`) and `fetchRelatedResponses` in the
response editor (`EditResponse`). -/

/-- The viewer resolver's synthetic label
`` `Response ${response.id?.substring?.(0, 8) || "Unknown"}...` ``. -/
def showDefaultLabel (respId : Json) : String :=
  let sub : Json := match respId with
    | .str s => .str (String.mk (s.toList.take 8))
    | _ => .undefined
  "Response " ++ (if sub.truthy then sub.toJsString else "Unknown") ++ "..."

/-- Display-value computation of `fetchRelatedFormData` (`ShowResponse`):
default `Response <id.substring(0,8) || "Unknown">...`; use the
configured display field's value when the field is configured and the
value is truthy; otherwise use the value of the first schema field of
type `text`, `email` or `textarea` when that value is truthy. -/
def relationDisplayShow (displayField : Json)
    (relatedFormFields : List FormField) (respId : Json) (data : Json) :
    String :=
  if displayField.truthy && (data.get displayField.toJsString).truthy then
    (data.get displayField.toJsString).toJsString
  else
    match relatedFormFields.find?
        (fun f => f.type == "text" || f.type == "email" ||
          f.type == "textarea") with
    | some tf =>
        if (data.get tf.id).truthy then (data.get tf.id).toJsString
        else showDefaultLabel respId
    | none => showDefaultLabel respId

/-- The editor resolver's synthetic label
`` `Response ${String(responseId).substring(0, 8)}...` ``. -/
def editDefaultLabel (responseId : Json) : String :=
  "Response " ++ String.mk (responseId.toJsString.toList.take 8) ++ "..."

/-- Display-value computation of `fetchRelatedResponses`
(`EditResponse`): default `Response <String(id).substring(0,8)>...`; only
when a display field is configured, use its value if not
undefined/null/empty, else fall back to the first of `Object.values(data)`
whose stringification trims non-empty (truncated to 50 characters); with
no display field configured the default synthetic label is kept. -/
def relationDisplayEdit (displayField : Json) (responseId : Json)
    (data : Json) : String :=
  if displayField.truthy then
    let dfv := data.get displayField.toJsString
    if !dfv.isUndefined && !dfv.strictEq .null && !dfv.strictEq (.str "") then
      dfv.toJsString
    else
      let vals := match data with
        | .obj entries => entries.map Prod.snd
        | _ => []
      match vals.find?
          (fun v => !v.isUndefined && !v.strictEq .null &&
            jsTrim v.toJsString != "") with
      | some fv =>
          if fv.truthy then
            let sv := fv.toJsString
            if decide (50 < sv.toList.length) then
              String.mk (sv.toList.take 50) ++ "..."
            else sv
          else editDefaultLabel responseId
      | none => editDefaultLabel responseId
  else editDefaultLabel responseId

/-- C3 counterexample: the ordered fallback does not hold for every
relation resolution — in the editor's resolver
(`fetchRelatedResponses`), a relation field with no `displayField`
configured keeps the synthetic label even though the target response's
first text-type field holds `"Jane"`; the viewer's resolver
(`fetchRelatedFormData`) on the same input does resolve `"Jane"`. -/
theorem edit_resolver_keeps_synthetic_label_without_displayField :
    relationDisplayShow .undefined
        [{ id := "name", type := "text", label := "Name", required := false }]
        (.str "resp0001xyz") (.obj [("name", .str "Jane")]) = "Jane" ∧
    relationDisplayEdit .undefined (.str "resp0001xyz")
        (.obj [("name", .str "Jane")]) = "Response resp0001..." ∧
    relationDisplayEdit .undefined (.str "resp0001xyz")
        (.obj [("name", .str "Jane")]) ≠ "Jane" :=
  ⟨rfl, rfl, by decide⟩

/-- C3 (amended): the viewer's resolver (`fetchRelatedFormData`) follows
the claimed ordered fallback — configured-and-truthy display field value
first, then the first text/email/textarea schema field's truthy value,
then the synthetic `Response <id-prefix>` label — and resolves `"Jane"`
in the claim's concrete scenario; the editor's resolver
(`fetchRelatedResponses`) applies no schema-based fallback: with no
`displayField` configured it always yields its synthetic label. -/
theorem relation_display_fallback (df : Json) (fields : List FormField)
    (rid : Json) (data : Json) :
    (df.truthy = true → (data.get df.toJsString).truthy = true →
      relationDisplayShow df fields rid data =
        (data.get df.toJsString).toJsString) ∧
    (∀ tf, (df.truthy && (data.get df.toJsString).truthy) = false →
      fields.find? (fun f => f.type == "text" || f.type == "email" ||
        f.type == "textarea") = some tf →
      (data.get tf.id).truthy = true →
      relationDisplayShow df fields rid data = (data.get tf.id).toJsString) ∧
    ((df.truthy && (data.get df.toJsString).truthy) = false →
      fields.find? (fun f => f.type == "text" || f.type == "email" ||
        f.type == "textarea") = none →
      relationDisplayShow df fields rid data = showDefaultLabel rid) ∧
    relationDisplayShow .undefined
        [{ id := "name", type := "text", label := "Name", required := false }]
        (.str "resp0001xyz") (.obj [("name", .str "Jane")]) = "Jane" ∧
    (∀ (rid2 data2 : Json), relationDisplayEdit .undefined rid2 data2 =
      editDefaultLabel rid2) := by
  refine ⟨?_, ?_, ?_, rfl, ?_⟩
  · intro h1 h2
    simp [relationDisplayShow, h1, h2]
  · intro tf hcond hfind htf
    simp only [relationDisplayShow, hcond, Bool.false_eq_true, if_false,
      hfind, htf, if_true]
  · intro hcond hfind
    simp only [relationDisplayShow, hcond, Bool.false_eq_true, if_false,
      hfind]
  · intro rid2 data2
    simp [relationDisplayEdit, Json.truthy]

/-- Witness for `relation_display_fallback`: with a configured display
field `"nick"` holding `"JJ"`, the viewer's resolver yields `"JJ"`. -/
theorem relation_display_fallback_witness :
    relationDisplayShow (.str "nick") [] (.str "resp0001xyz")
        (.obj [("nick", .str "JJ")]) =
      ((Json.obj [("nick", .str "JJ")]).get
          (Json.str "nick").toJsString).toJsString :=
  (relation_display_fallback (.str "nick") [] (.str "resp0001xyz")
      (.obj [("nick", .str "JJ")])).1 rfl rfl

/-! ## CSV export

Embedding of `handleExportCSV` from the responses index. -/

/-- The per-value escaping of `handleExportCSV`: wrap in double quotes and
double the internal double quotes when the value contains a comma, a
newline or a double quote. -/
def escapeCsv (s : String) : String :=
  let cs := s.toList
  if cs.contains ',' || cs.contains '\n' || cs.contains '"' then
    String.mk ('"' ::
      (cs.map (fun c => if c = '"' then ['"', '"'] else [c])).flatten ++ ['"'])
  else s

/-- One schema-field column cell: empty for `null`/`undefined`, otherwise
the escaped stringification. -/
def csvFieldCell (v : Json) : String :=
  if v.strictEq .null || v.strictEq .undefined then "" else escapeCsv v.toJsString

/-- A response row as the export sees it. -/
structure CsvResp where
  id : String
  created_at : String
  data : Json

/-- One CSV data row: the formatted submission date (the
locale-dependent `new Date(created_at).toLocaleString()` is the
parameter `fmtDate`), then one cell per schema field in schema order,
then the response id.  Only the field cells pass through `escapeCsv`. -/
def csvRow (fmtDate : String → String) (formFields : List FormField)
    (resp : CsvResp) : List String :=
  fmtDate resp.created_at ::
    formFields.map (fun f => csvFieldCell (resp.data.get f.id)) ++ [resp.id]

/-- The full CSV text: a header row (`"Submission Date"`, the field
labels, `"Response ID"`), then one row per response, comma-joined and
newline-joined. -/
def csvContent (fmtDate : String → String) (formFields : List FormField)
    (responses : List CsvResp) : String :=
  let headers := "Submission Date" :: formFields.map (·.label) ++
    ["Response ID"]
  String.intercalate "\n"
    (String.intercalate "," headers ::
      (responses.map (fun r =>
        String.intercalate "," (csvRow fmtDate formFields r))))

/-- C9 counterexample: the submission-date column is emitted raw, not
escaped — with a locale-formatted date containing a comma (as
`toLocaleString` produces in common locales), the date cell appears
verbatim in the row even though it contains a comma, and it differs from
its escaped form; so "every emitted value containing a comma ... is
escaped (including the stringified submission-date column)" fails. -/
theorem csv_date_column_not_escaped :
    csvRow (fun _ => "10/11/2026, 9:30:00 AM")
        [{ id := "name", type := "text", label := "Name", required := false }]
        { id := "r1", created_at := "2026-10-11T09:30:00Z",
          data := .obj [("name", .str "Jane")] } =
      ["10/11/2026, 9:30:00 AM", "Jane", "r1"] ∧
    "10/11/2026, 9:30:00 AM".toList.contains ',' = true ∧
    escapeCsv "10/11/2026, 9:30:00 AM" ≠ "10/11/2026, 9:30:00 AM" :=
  ⟨rfl, rfl, by decide⟩

/-- C9 (amended): every CSV data row is the formatted submission date,
then one column per schema field in schema order, then the response id;
the schema-field cells are escaped (empty for null/undefined, otherwise
wrapped in double quotes with internal double quotes doubled exactly when
the stringified value contains a comma, double quote or newline), while
the submission-date and response-id columns are emitted raw. -/
theorem csv_export_structure (fmtDate : String → String)
    (formFields : List FormField) (resp : CsvResp) (s : String) :
    csvRow fmtDate formFields resp =
      fmtDate resp.created_at ::
        formFields.map (fun f => csvFieldCell (resp.data.get f.id)) ++
        [resp.id] ∧
    ((s.toList.contains ',' || s.toList.contains '\n' ||
        s.toList.contains '"') = false → escapeCsv s = s) ∧
    ((s.toList.contains ',' || s.toList.contains '\n' ||
        s.toList.contains '"') = true →
      escapeCsv s = String.mk ('"' ::
        (s.toList.map (fun c => if c = '"' then ['"', '"'] else [c])).flatten
        ++ ['"'])) ∧
    (∀ v : Json, (v.strictEq .null || v.strictEq .undefined) = true →
      csvFieldCell v = "") ∧
    (∀ v : Json, (v.strictEq .null || v.strictEq .undefined) = false →
      csvFieldCell v = escapeCsv v.toJsString) := by
  refine ⟨rfl, ?_, ?_, ?_, ?_⟩
  · intro h
    simp only [escapeCsv, h]
    rfl
  · intro h
    simp only [escapeCsv, h]
    rfl
  · intro v h; simp [csvFieldCell, h]
  · intro v h; simp [csvFieldCell, h]

/-- Witness for `csv_export_structure`: a value containing a double quote
is wrapped and doubled. -/
theorem csv_export_structure_witness :
    escapeCsv "a\"b" = String.mk ('"' ::
      ("a\"b".toList.map (fun c => if c = '"' then ['"', '"'] else [c])).flatten
      ++ ['"']) :=
  (csv_export_structure (fun s => s) [] ⟨"", "", .null⟩ "a\"b").2.2.1 rfl

/-! ## Relation-field processing at form save time

`processRelationFields` (`graphql.service.ts`) starts from
`JSON.parse(JSON.stringify(formData))` and performs every rewrite on that
copy.  To state the frame property (C10) the object store is made
explicit: a heap maps addresses to (tree-valued) objects, the deep copy
is a fresh allocation, and all of the copy-local rewriting is folded into
the pure `processBody` whose result is written back to the fresh
address.  The caller's argument lives at a pre-existing address and the
claim is that the call changes no pre-existing address. -/

/-- `Array.isArray`. -/
def Json.isArr : Json → Bool
  | .arr _ => true
  | _ => false

/-- Per-field rewrite inside `processRelationFields`: for a relation
field with a truthy `relationConfig.formId`, look up the target form; if
found, set `formTitle` (`relatedForm.title || "Untitled Form"`), default
`displayField` to the target schema's first field id when unset, and
default `valueField` to `"id"`; if not found, set
`formTitle = "Form not found"`. -/
def processField (jparse : String → Option Json) (allForms : List Json)
    (field : Json) : Json :=
  let rcfg := field.get "relationConfig"
  if (field.get "type").strictEq (.str "relation") &&
      (rcfg.get "formId").truthy then
    match allForms.find?
        (fun f => (f.get "id").strictEq (rcfg.get "formId")) with
    | some rf =>
        let rcfg1 := rcfg.setKey "formTitle"
          (if (rf.get "title").truthy then rf.get "title"
            else .str "Untitled Form")
        let rcfg2 :=
          if !(rcfg1.get "displayField").truthy then
            let rs := match rf.get "schema" with
              | .str s =>
                  match jparse s with
                  | some j => j
                  | none => .str s
              | j => j
            let id0 := match rs.get "fields" with
              | .arr (f0 :: _) => f0.get "id"
              | _ => .undefined
            if id0.truthy then rcfg1.setKey "displayField" id0 else rcfg1
          else rcfg1
        let rcfg3 :=
          if !(rcfg2.get "valueField").truthy then
            rcfg2.setKey "valueField" (.str "id")
          else rcfg2
        field.setKey "relationConfig" rcfg3
    | none =>
        field.setKey "relationConfig"
          (rcfg.setKey "formTitle" (.str "Form not found"))
  else field

/-- The value-level body of `processRelationFields` applied to the deep
copy: parse a string schema (a parse failure returns the copy
unchanged), return the copy unchanged unless the schema is a truthy
object with a `fields` array, otherwise map `processField` over the
fields and store the re-serialized schema string back on the copy. -/
def processBody (jparse : String → Option Json) (allForms : List Json)
    (pd : Json) : Json :=
  let step : Json → Json := fun schema =>
    if !schema.truthy || !schema.isObjectType ||
        !(schema.get "fields").isArr then pd
    else
      match schema.get "fields" with
      | .arr fields =>
          let schema1 :=
            schema.setKey "fields" (.arr (fields.map (processField jparse allForms)))
          pd.setKey "schema" (.str (Json.stringify schema1))
      | _ => pd
  match pd.get "schema" with
  | .str s =>
      match jparse s with
      | none => pd
      | some schema => step schema
  | schema => step schema

/-- A heap of JavaScript objects: a fresh-address counter and an
association list of cells (later writes shadow earlier ones). -/
structure Heap where
  next : Nat
  cells : List (Nat × Json)

def Heap.lookup (h : Heap) (a : Nat) : Option Json := h.cells.lookup a

/-- Allocation at the fresh address. -/
def Heap.alloc (h : Heap) (v : Json) : Nat × Heap :=
  (h.next, ⟨h.next + 1, (h.next, v) :: h.cells⟩)

/-- In-place update of an address. -/
def Heap.write (h : Heap) (a : Nat) (v : Json) : Heap :=
  ⟨h.next, (a, v) :: h.cells⟩

/-- `processRelationFields` at heap level: read the caller's form data,
allocate the deep copy `JSON.parse(JSON.stringify(formData))` at a fresh
address (the JSON round trip is the identity on the modelled tree
values), perform the schema rewriting on the copy — `processBody` written
back to the copy's address — and return the copy's address. -/
def processRelationFieldsH (jparse : String → Option Json)
    (allForms : List Json) (h : Heap) (a : Nat) : Option Nat × Heap :=
  match h.lookup a with
  | none => (none, h)
  | some fd =>
      let c := h.alloc fd
      (some c.1, (c.2.write c.1 (processBody jparse allForms fd)))

/-- `createForm`: process the relation fields, then build the mutation
variables `{title, description || null, schema}` by reading the processed
copy (the client-side timestamps are outside the modelled state). -/
def createFormH (jparse : String → Option Json) (allForms : List Json)
    (h : Heap) (a : Nat) : Option Json × Heap :=
  match processRelationFieldsH jparse allForms h a with
  | (none, h') => (none, h')
  | (some pAddr, h') =>
      match h'.lookup pAddr with
      | none => (none, h')
      | some p =>
          (some (.obj
            [("title", p.get "title"),
             ("description",
               if (p.get "description").truthy then p.get "description"
               else .null),
             ("schema", p.get "schema")]), h')

/-- `updateForm`: identical processing and variable construction shape
(the `updated_at` stamp is outside the modelled state). -/
def updateFormH (jparse : String → Option Json) (allForms : List Json)
    (h : Heap) (a : Nat) : Option Json × Heap :=
  match processRelationFieldsH jparse allForms h a with
  | (none, h') => (none, h')
  | (some pAddr, h') =>
      match h'.lookup pAddr with
      | none => (none, h')
      | some p =>
          (some (.obj
            [("title", p.get "title"),
             ("description",
               if (p.get "description").truthy then p.get "description"
               else .null),
             ("schema", p.get "schema")]), h')

/-- The heap after `createFormH` is the heap after the relation
processing (the variable construction only reads). -/
theorem createFormH_snd (jparse : String → Option Json)
    (allForms : List Json) (h : Heap) (a : Nat) :
    (createFormH jparse allForms h a).2 =
      (processRelationFieldsH jparse allForms h a).2 := by
  unfold createFormH
  rcases hp : processRelationFieldsH jparse allForms h a with ⟨op, h'⟩
  cases op with
  | none => simp
  | some pAddr => cases hq : h'.lookup pAddr <;> simp [hq]

/-- The heap after `updateFormH` is the heap after the relation
processing. -/
theorem updateFormH_snd (jparse : String → Option Json)
    (allForms : List Json) (h : Heap) (a : Nat) :
    (updateFormH jparse allForms h a).2 =
      (processRelationFieldsH jparse allForms h a).2 := by
  unfold updateFormH
  rcases hp : processRelationFieldsH jparse allForms h a with ⟨op, h'⟩
  cases op with
  | none => simp
  | some pAddr => cases hq : h'.lookup pAddr <;> simp [hq]

/-- C10: relation processing at form save time writes only to the fresh
copy address, so every pre-existing address — in particular the caller's
`formData` object, with its `title`, `description` and `schema` values —
is unchanged after `processRelationFields`, `createForm` and
`updateForm` return. -/
theorem process_relation_never_mutates_formData
    (jparse : String → Option Json) (allForms : List Json) (h : Heap)
    (a a' : Nat) (ha' : a' < h.next) :
    (processRelationFieldsH jparse allForms h a).2.lookup a' =
        h.lookup a' ∧
    (createFormH jparse allForms h a).2.lookup a' = h.lookup a' ∧
    (updateFormH jparse allForms h a).2.lookup a' = h.lookup a' := by
  have hne : (a' == h.next) = false := by
    simp [Nat.ne_of_lt ha']
  have key : (processRelationFieldsH jparse allForms h a).2.lookup a' =
      h.lookup a' := by
    unfold processRelationFieldsH
    cases hl : h.lookup a with
    | none => simp
    | some fd =>
        simp [Heap.alloc, Heap.write, Heap.lookup, List.lookup, hne]
  exact ⟨key, by rw [createFormH_snd]; exact key,
    by rw [updateFormH_snd]; exact key⟩

/-- Witness for `process_relation_never_mutates_formData`: a concrete
one-object heap is unchanged at the caller's address. -/
theorem process_relation_never_mutates_formData_witness :
    (processRelationFieldsH (fun _ => none) []
        ⟨1, [(0, .obj [("title", .str "T"), ("schema", .str "x")])]⟩
        0).2.lookup 0 =
      (Heap.lookup
        ⟨1, [(0, .obj [("title", .str "T"), ("schema", .str "x")])]⟩ 0) :=
  (process_relation_never_mutates_formData (fun _ => none) []
      ⟨1, [(0, .obj [("title", .str "T"), ("schema", .str "x")])]⟩
      0 0 (by decide)).1
